import Mathlib

/-!
# Verification of the hojo-ws WebSocket relay server (src/server.js)

Shallow embedding of the connection registry, presence tracker, broadcast
engine and notification dispatch pipeline of `src/server.js`, together with
theorems settling the frozen claims about it.

Modelling conventions:
* A connection (`ws` handle) is an opaque identifier `Conn := Nat`.
* The JS `Map` `clients` is an insertion-ordered association list
  `List (Conn × ClientInfo)`; `Map.set` overwrites in place, `Map.delete`
  filters, `forEach` iterates in list order.
* The JS object `activeConversationUsers` (`{ [conversationId]: Set<userId> }`)
  is an association list `List (String × List String)` whose value lists are
  treated as sets (`setAdd` refuses duplicates, deletion filters).
* A socket's `readyState === WebSocket.OPEN` is an environment predicate
  `isOpen : Conn → Bool`: openness is a property of the underlying channel,
  not of the registry.
* Optional JS values (`undefined` / `null`) are `Option`.  JS strict
  equality `===` between a value that is absent on one side as `null`
  (e.g. `clientInfo.userId`, from `searchParams.get`) and absent on the
  other side as `undefined` (a missing payload field) is never true, so
  those comparisons are modelled by `jsStrictEqOpt`, which is false unless
  both sides are present strings.  `clientInfo.conversationId` and
  `message.conversation_id` are both `undefined` when absent, so their
  comparison is plain `Option` equality.
* JS truthiness of a string (`if (userId)`) is `isTruthy`: present and
  non-empty.  `a || b` on strings is `jsOrStr`.
* External effects (socket sends, HTTP persistence calls) are returned as
  lists of attempted calls; a per-call failure is caught inside the call in
  the source (try/catch in `saveNotification` / `saveUserActivity`, and
  around each `client.send`), so an attempt is recorded regardless of its
  outcome, which is supplied by an oracle `outcomes : Nat → CallOutcome`.
-/

/-- Connection handle (the `ws` object), opaque to the registry. -/
abbrev Conn := Nat

/-- Session metadata stored in the `clients` map (server.js lines 162-166). -/
structure ClientInfo where
  conversationId : Option String
  userId : Option String
  connectedAt : Nat
  deriving DecidableEq, Repr

/-- The `clients` map: insertion-ordered association list keyed by connection. -/
abbrev Registry := List (Conn × ClientInfo)

/-- The `activeConversationUsers` object: conversation id ↦ set of user ids. -/
abbrev PresenceMap := List (String × List String)

/-- JS strict equality `a === b` where an absent value on the two sides is
`null` on one and `undefined` on the other (never strictly equal): true only
when both are present and equal. -/
def jsStrictEqOpt (a b : Option String) : Bool :=
  match a, b with
  | some x, some y => x = y
  | _, _ => false

/-- JS truthiness of an optional string: present and non-empty. -/
def isTruthy (a : Option String) : Bool :=
  match a with
  | some s => s ≠ ""
  | none => false

/-- JS `a || b` for an optional string `a`: `b` when `a` is absent or empty. -/
def jsOrStr (a : Option String) (b : String) : String :=
  match a with
  | some s => if s = "" then b else s
  | none => b

/-- Model of `Map.get` on the registry. -/
def mapGet (m : Registry) (k : Conn) : Option ClientInfo :=
  (m.find? (fun p => p.1 = k)).map Prod.snd

/-- Model of `Map.set` on the registry: overwrite in place, else append. -/
def mapSet (m : Registry) (k : Conn) (v : ClientInfo) : Registry :=
  if m.any (fun p => p.1 = k) then
    m.map (fun p => if p.1 = k then (k, v) else p)
  else
    m ++ [(k, v)]

/-- Model of `Map.delete` on the registry. -/
def mapDelete (m : Registry) (k : Conn) : Registry :=
  m.filter (fun p => p.1 ≠ k)

/-- Model of `Set.add` on a user set (no duplicates). -/
def setAdd (l : List String) (u : String) : List String :=
  if u ∈ l then l else l ++ [u]

/-- Join tracking on connect (server.js lines 153-159): create the set lazily
and add the user. -/
def presenceJoin (m : PresenceMap) (c u : String) : PresenceMap :=
  if m.any (fun p => p.1 = c) then
    m.map (fun p => if p.1 = c then (c, setAdd p.2 u) else p)
  else
    m ++ [(c, [u])]

/-- Leave tracking on close (server.js lines 322-327): if the set exists,
delete the user, and drop the set once empty. -/
def presenceLeave (m : PresenceMap) (c u : String) : PresenceMap :=
  if m.any (fun p => p.1 = c) then
    (m.map (fun p => if p.1 = c then (c, p.2.filter (fun x => x ≠ u)) else p)).filter
      (fun p => ¬(p.1 = c ∧ p.2 = []))
  else
    m

/-- Inbound chat message payload (`data.message` of a `new_message` event). -/
structure Sender where
  first_name : Option String
  username : Option String
  deriving DecidableEq, Repr

structure ChatMessage where
  conversation_id : Option String
  sender_id : Option String
  content : Option String
  sender : Option Sender
  id : Option String
  deriving DecidableEq, Repr

/-- Inbound `follow` event payload. -/
structure FollowEvent where
  action : Option String
  followedId : Option String
  followerId : Option String
  followerName : Option String
  timestamp : Option Nat
  deriving DecidableEq, Repr

/-- An outbound JSON envelope sent over a connection.  The nondeterministic
`id` / `created_at` fields of a live notification are omitted; the fields the
claims distinguish (kind, recipient user id, notification type, title, body)
are kept. -/
inductive Envelope where
  /-- live `{type:'new_notification', notification:{user_id, type, title, message, …}}` -/
  | newNotification (user_id : Option String) (ntype : String)
      (title : String) (message : String) : Envelope
  /-- relayed `{type:'new_message', senderName, content, conversationId, messageId}` -/
  | relayedNewMessage (senderName : String) (content : Option String)
      (conversationId : Option String) (messageId : Option String) : Envelope
  /-- legacy `{type:'follow_notification', …}` -/
  | followNotification (followerId followedId : Option String)
      (followerName : Option String) (action : Option String)
      (timestamp : Nat) : Envelope
  /-- presence `{type:'user_presence', userId, isOnline}` -/
  | userPresence (userId : String) (isOnline : Bool) : Envelope
  /-- the raw inbound `new_message` payload relayed verbatim by
  `broadcastToConversation` in step 3 of the handler -/
  | rawNewMessage (m : ChatMessage) : Envelope
  deriving DecidableEq, Repr

/-- A send attempt: which connection, which envelope. -/
abbrev Send := Conn × Envelope

/-- Model of `broadcastToConversation(conversationId, data, sender)`
(server.js lines 358-378): no-op when `conversationId` is falsy
(absent or empty string); otherwise send to every registered connection other
than `sender` that is open and whose stored `conversationId` strictly equals
the target.  Pure: it returns the send attempts and touches no state. -/
def broadcastToConversation (isOpen : Conn → Bool) (clients : Registry)
    (conversationId : Option String) (data : Envelope) (sender : Conn) :
    List Send :=
  match conversationId with
  | none => []
  | some cid =>
    if cid = "" then []
    else
      clients.filterMap (fun p =>
        if p.1 ≠ sender ∧ isOpen p.1 ∧ p.2.conversationId = some cid then
          some (p.1, data)
        else none)

/-- Model of `broadcastToAll(data, sender)` (server.js lines 381-397): send to every
registered open connection other than `sender`. -/
def broadcastToAll (isOpen : Conn → Bool) (clients : Registry)
    (data : Envelope) (sender : Conn) : List Send :=
  clients.filterMap (fun p =>
    if p.1 ≠ sender ∧ isOpen p.1 then some (p.1, data) else none)

/-- Model of `getSocketForUser(userId)` (server.js lines 136-143): first registered
open connection whose session `userId` strictly equals the argument. -/
def getSocketForUser (isOpen : Conn → Bool) (clients : Registry)
    (userId : Option String) : Option Conn :=
  (clients.find? (fun p => jsStrictEqOpt p.2.userId userId && isOpen p.1)).map
    Prod.fst

/-- Outcome of one external HTTP persistence call; a failure covers network
errors, non-2xx responses and missing `FRONTEND_API_URL` configuration alike,
all of which the source catches inside the call. -/
inductive CallOutcome where
  | success
  | failure
  deriving DecidableEq, Repr

/-- The body handed to `POST {base}/api/notifications` by `saveNotification`
(server.js lines 73-101).  `data` sub-fields not needed by the claims are
omitted. -/
structure NotifRecord where
  user_id : Option String
  ntype : String
  title : String
  message : String
  deriving DecidableEq, Repr

/-- The body handed to `POST {base}/api/user-activity` by `saveUserActivity`
(server.js lines 103-133). -/
structure ActivityRecord where
  user_id : Option String
  atype : String
  title : String
  description : String
  recipient_count : Int
  deriving DecidableEq, Repr

/-- A recorded persistence attempt: the request body and what the external
call did.  `saveNotification` / `saveUserActivity` wrap the whole call in
try/catch, so the attempt always completes normally regardless of outcome. -/
structure NotifAttempt where
  record : NotifRecord
  outcome : CallOutcome
  deriving DecidableEq, Repr

structure ActivityAttempt where
  record : ActivityRecord
  outcome : CallOutcome
  deriving DecidableEq, Repr

/-- Evaluation of `message.sender?.first_name || message.sender?.username || 'Someone'`. -/
def senderDisplayName (m : ChatMessage) : String :=
  jsOrStr (m.sender.bind (fun s => s.first_name))
    (jsOrStr (m.sender.bind (fun s => s.username)) "Someone")

/-- Request body of the `saveNotification` call issued for one recipient of
a `new_message` (server.js lines 44-53). -/
def notifRecordFor (m : ChatMessage) (uid : String) : NotifRecord :=
  { user_id := some uid
    ntype := "message"
    title := "New message from " ++ senderDisplayName m
    message := jsOrStr m.content "New message" }

/-- Sequentially attempt a list of persistence calls: the i-th call (counting
from `i`) gets outcome `outcomes i`.  Each call's failure is caught inside it
(try/catch in `saveNotification`), so every call in the list is attempted no
matter what the earlier outcomes were. -/
def attemptCalls (outcomes : Nat → CallOutcome) :
    Nat → List NotifRecord → List NotifAttempt
  | _, [] => []
  | i, r :: rs => { record := r, outcome := outcomes i } :: attemptCalls outcomes (i + 1) rs

/-- Model of `saveMessageNotificationsForAll(message)` (server.js lines 26-71).
`query` is the result of the supabase participant-directory query (the list
of active `user_id`s, or an in-band error); `outcomes i` is what the external
API did on the i-th persistence call of this pass.  On a query error the
function logs and returns: no notification and no activity call is attempted.
Otherwise one `saveNotification` is attempted per participant whose `user_id`
is not strictly equal to `message.sender_id` (each awaited in turn, its
failure caught inside), then one `saveUserActivity` for the sender with
`recipient_count = participants.length - 1`. -/
def saveMessageNotificationsForAll (query : Except Unit (List String))
    (outcomes : Nat → CallOutcome) (m : ChatMessage) :
    List NotifAttempt × List ActivityAttempt :=
  match query with
  | .error _ => ([], [])
  | .ok participants =>
    let recipients := participants.filter (fun uid => some uid ≠ m.sender_id)
    let notifs := attemptCalls outcomes 0 (recipients.map (notifRecordFor m))
    let activity :=
      [{ record :=
           { user_id := m.sender_id
             atype := "message_sent"
             title := "Message Sent"
             description := "You sent a message in conversation"
             recipient_count := (participants.length : Int) - 1 }
         outcome := outcomes recipients.length }]
    (notifs, activity)

/-- The whole server state the claims range over: the `clients` registry and
the `activeConversationUsers` presence map. -/
structure ServerState where
  clients : Registry
  active : PresenceMap
  deriving DecidableEq, Repr

/-- Effects of handling one inbound event: socket send attempts and external
persistence attempts. -/
structure Effects where
  sends : List Send
  notifs : List NotifAttempt
  activities : List ActivityAttempt
  deriving DecidableEq, Repr

/-- Model of `case 'new_message'` of the message handler (server.js lines 261-308),
for an event arriving on connection `ws` with payload message `m`:
1. await `saveMessageNotificationsForAll` (its query error is consumed
   in-band and never reaches this handler);
2. for every registered entry whose `userId` is not strictly equal to
   `m.sender_id` and whose channel is open, send a `new_notification`
   envelope, and additionally, if its `conversationId` equals
   `m.conversation_id` (both-absent compares equal: both are `undefined`),
   send the relayed `new_message` envelope;
3. `broadcastToConversation(m.conversation_id, data, ws)` with the raw
   inbound payload. -/
def handleNewMessage (isOpen : Conn → Bool) (st : ServerState)
    (query : Except Unit (List String)) (outcomes : Nat → CallOutcome)
    (ws : Conn) (m : ChatMessage) : Effects :=
  let persisted := saveMessageNotificationsForAll query outcomes m
  let fanout := st.clients.flatMap (fun p =>
    if ¬ jsStrictEqOpt p.2.userId m.sender_id ∧ isOpen p.1 then
      (p.1, Envelope.newNotification p.2.userId "message"
        ("New message from " ++ senderDisplayName m)
        (jsOrStr (m.content.map (fun c => c.take 100)) "New message")) ::
      (if p.2.conversationId = m.conversation_id then
        [(p.1, Envelope.relayedNewMessage
            (jsOrStr (m.sender.bind (fun s => s.username)) "Someone")
            m.content m.conversation_id m.id)]
      else [])
    else [])
  let relay := broadcastToConversation isOpen st.clients m.conversation_id
    (Envelope.rawNewMessage m) ws
  { sends := fanout ++ relay
    notifs := persisted.1
    activities := persisted.2 }

/-- Model of `case 'follow'` of the message handler (server.js lines 198-259).  Only
`action === 'follow'` is processed: one `saveNotification` for the followed
user, then, if `getSocketForUser` finds an open connection for the followed
user, a `new_notification` envelope and a legacy `follow_notification`
envelope to that one socket.  Any other `action` does nothing.  `now` stands
for `Date.now()` (used when the payload carries no truthy timestamp). -/
def handleFollow (isOpen : Conn → Bool) (clients : Registry)
    (outcome : CallOutcome) (now : Nat) (e : FollowEvent) : Effects :=
  if e.action = some "follow" then
    let body := jsOrStr e.followerName "Someone" ++ " started following you!"
    let sends :=
      match getSocketForUser isOpen clients e.followedId with
      | some sock =>
        [(sock, Envelope.newNotification e.followedId "follow" "New Follower"
            body),
         (sock, Envelope.followNotification e.followerId e.followedId
            e.followerName e.action
            (match e.timestamp with
             | some t => if t = 0 then now else t
             | none => now))]
      | none => []
    { sends := sends
      notifs := [{ record :=
                     { user_id := e.followedId
                       ntype := "follow"
                       title := "New Follower"
                       message := body }
                   outcome := outcome }]
      activities := [] }
  else
    { sends := [], notifs := [], activities := [] }

/-- The connect sequence (server.js lines 145-168 and 347-354): track the
join in the presence map when both ids are truthy, register the session,
then, if the userId is truthy, broadcast `user_presence{isOnline:true}` to
everyone but the new connection itself. -/
def handleConnect (isOpen : Conn → Bool) (st : ServerState) (ws : Conn)
    (conversationId userId : Option String) (now : Nat) :
    ServerState × List Send :=
  let active :=
    match conversationId, userId with
    | some c, some u =>
      if c ≠ "" ∧ u ≠ "" then presenceJoin st.active c u else st.active
    | _, _ => st.active
  let clients := mapSet st.clients ws
    { conversationId := conversationId, userId := userId, connectedAt := now }
  let sends :=
    match userId with
    | some u =>
      if u ≠ "" then
        broadcastToAll isOpen clients (Envelope.userPresence u true) ws
      else []
    | none => []
  ({ clients := clients, active := active }, sends)

/-- The `ws.on('close')` handler (server.js lines 321-341).  `conversationId`
and `userId` are the connect-time closure variables (they survive even if the
reaper already removed the registry entry); the presence map is updated from
them, the offline broadcast uses the still-registered `clientInfo` (so it is
computed before the registry entry is deleted), and finally the entry is
deleted. -/
def handleClose (isOpen : Conn → Bool) (st : ServerState) (ws : Conn)
    (conversationId userId : Option String) : ServerState × List Send :=
  let active :=
    match conversationId, userId with
    | some c, some u =>
      if c ≠ "" ∧ u ≠ "" then presenceLeave st.active c u else st.active
    | _, _ => st.active
  let sends :=
    match mapGet st.clients ws with
    | some info =>
      match info.userId with
      | some u =>
        if u ≠ "" then
          broadcastToAll isOpen st.clients (Envelope.userPresence u false) ws
        else []
      | none => []
    | none => []
  ({ clients := mapDelete st.clients ws, active := active }, sends)

/-- One reaper sweep (server.js lines 400-407): delete every registry entry
whose channel is not open.  The presence map is not touched. -/
def reaperSweep (isOpen : Conn → Bool) (st : ServerState) : ServerState :=
  { st with clients := st.clients.filter (fun p => isOpen p.1) }

/-- Envelope-kind discriminators (the `type` tag of the outbound JSON). -/
def isNewNotification : Envelope → Bool
  | .newNotification .. => true
  | _ => false

def isRelayedNewMessage : Envelope → Bool
  | .relayedNewMessage .. => true
  | _ => false

/-- A handler's effects deliver an envelope of kind `kind` to connection
`c`. -/
def receives (eff : Effects) (c : Conn) (kind : Envelope → Bool) : Prop :=
  ∃ env, (c, env) ∈ eff.sends ∧ kind env = true

/-- Session `info` carries the (conversationId, userId) pair `(c, u)`.
Empty-string identifiers are treated as absent, exactly as the source does
(every guard on these ids is a JS truthiness check). -/
def hasPair (info : ClientInfo) (c u : String) : Prop :=
  info.conversationId = some c ∧ info.userId = some u ∧ c ≠ "" ∧ u ≠ ""

/-- User `u` is in the presence set of conversation `c`. -/
def userInSet (m : PresenceMap) (c u : String) : Prop :=
  ∃ us, (c, us) ∈ m ∧ u ∈ us

/-- The conversation-presence invariant of the spec: a user identifier is in
the set of a conversation iff at least one registered session carries that
(userId, conversationId) pair, and a set that becomes empty is deleted from
the map rather than retained. -/
def presenceInvariant (st : ServerState) : Prop :=
  (∀ c u, userInSet st.active c u ↔ ∃ p ∈ st.clients, hasPair p.2 c u) ∧
  (∀ cu ∈ st.active, cu.2 ≠ [])

/-! ## Helper lemmas about the shallow embedding -/

theorem jsStrictEqOpt_some_right (a : Option String) (f : String) :
    jsStrictEqOpt a (some f) = true ↔ a = some f := by
  cases a <;> simp [jsStrictEqOpt]

theorem mapGet_eq_none_iff (m : Registry) (k : Conn) :
    mapGet m k = none ↔ ∀ p ∈ m, p.1 ≠ k := by
  simp [mapGet, List.find?_eq_none]

theorem mem_of_mapGet_eq_some {m : Registry} {k : Conn} {v : ClientInfo}
    (h : mapGet m k = some v) : (k, v) ∈ m := by
  rw [mapGet] at h
  rcases hf : m.find? (fun p => p.1 = k) with _ | p
  · rw [hf] at h; cases h
  · rw [hf] at h
    have hk : p.1 = k := by simpa using List.find?_some hf
    have hv : p.2 = v := by simpa using h
    have := List.mem_of_find?_eq_some hf
    rwa [← hk, ← hv, Prod.mk.eta]

theorem mapGet_eq_of_mem {m : Registry} {k : Conn} {v : ClientInfo}
    (hnd : (m.map Prod.fst).Nodup) (h : (k, v) ∈ m) : mapGet m k = some v := by
  induction m with
  | nil => cases h
  | cons hd tl ih =>
    simp only [List.map_cons, List.nodup_cons] at hnd
    rcases List.mem_cons.mp h with h | h
    · rw [mapGet, List.find?_cons_of_pos _ (by simp [← h])]
      simp [← h]
    · have hk : k ∈ tl.map Prod.fst := List.mem_map_of_mem Prod.fst h
      have hne : hd.1 ≠ k := by
        intro he
        exact hnd.1 (he ▸ hk)
      rw [mapGet, List.find?_cons_of_neg _ (by simpa using hne)]
      have := ih hnd.2 h
      rwa [mapGet] at this

theorem mem_setAdd {l : List String} {u x : String} :
    x ∈ setAdd l u ↔ x ∈ l ∨ x = u := by
  by_cases h : u ∈ l
  · rw [setAdd, if_pos h]
    exact ⟨fun hx => Or.inl hx, fun hx => hx.elim id (fun e => e ▸ h)⟩
  · rw [setAdd, if_neg h]
    simp

theorem setAdd_ne_nil (l : List String) (u : String) : setAdd l u ≠ [] := by
  rw [setAdd]
  split
  · rename_i h
    intro hnil
    rw [hnil] at h
    cases h
  · simp

theorem userInSet_presenceJoin (m : PresenceMap) (c u c' u' : String) :
    userInSet (presenceJoin m c u) c' u' ↔
      userInSet m c' u' ∨ (c' = c ∧ u' = u) := by
  by_cases hany : m.any (fun p => p.1 = c)
  · rw [presenceJoin, if_pos hany]
    constructor
    · rintro ⟨us, hmem, hu⟩
      rw [List.mem_map] at hmem
      obtain ⟨⟨c₀, us₀⟩, h₀, heq⟩ := hmem
      by_cases hc : c₀ = c
      · rw [if_pos (by simpa using hc)] at heq
        obtain ⟨hc', hus⟩ := Prod.mk.inj heq
        rcases mem_setAdd.mp (hus ▸ hu) with hu' | hu'
        · exact Or.inl ⟨us₀, hc' ▸ hc ▸ h₀, hu'⟩
        · exact Or.inr ⟨hc'.symm, hu'⟩
      · rw [if_neg (by simpa using hc)] at heq
        obtain ⟨hc', hus⟩ := Prod.mk.inj heq
        exact Or.inl ⟨us₀, hc' ▸ h₀, hus ▸ hu⟩
    · rintro (⟨us, hmem, hu⟩ | ⟨he, hu⟩)
      · by_cases hc : c' = c
        · refine ⟨setAdd us u, ?_, mem_setAdd.mpr (Or.inl hu)⟩
          have := List.mem_map_of_mem
            (fun p : String × List String =>
              if p.1 = c then (c, setAdd p.2 u) else p) hmem
          simpa [hc] using this
        · refine ⟨us, ?_, hu⟩
          have := List.mem_map_of_mem
            (fun p : String × List String =>
              if p.1 = c then (c, setAdd p.2 u) else p) hmem
          simpa [hc] using this
      · obtain ⟨⟨c₀, us₀⟩, hmem, hc₀⟩ := List.any_eq_true.mp hany
        have hc₀' : c₀ = c := by simpa using hc₀
        refine ⟨setAdd us₀ u, ?_, mem_setAdd.mpr (Or.inr hu)⟩
        have := List.mem_map_of_mem
          (fun p : String × List String =>
            if p.1 = c then (c, setAdd p.2 u) else p) hmem
        rw [he]
        simpa [hc₀'] using this
  · rw [presenceJoin, if_neg hany]
    constructor
    · rintro ⟨us, hmem, hu⟩
      rcases List.mem_append.mp hmem with h | h
      · exact Or.inl ⟨us, h, hu⟩
      · simp only [List.mem_singleton] at h
        obtain ⟨hc', hus⟩ := Prod.mk.inj h
        subst hus
        simp only [List.mem_singleton] at hu
        exact Or.inr ⟨hc', hu⟩
    · rintro (⟨us, hmem, hu⟩ | ⟨he, hu⟩)
      · exact ⟨us, List.mem_append.mpr (Or.inl hmem), hu⟩
      · exact ⟨[u], List.mem_append.mpr (Or.inr (by simp [he])), by simp [hu]⟩

theorem presenceJoin_sets_ne_nil (m : PresenceMap) (c u : String)
    (h : ∀ cu ∈ m, cu.2 ≠ []) : ∀ cu ∈ presenceJoin m c u, cu.2 ≠ [] := by
  intro cu hcu
  by_cases hany : m.any (fun p => p.1 = c)
  · rw [presenceJoin, if_pos hany] at hcu
    rw [List.mem_map] at hcu
    obtain ⟨p, hp, heq⟩ := hcu
    by_cases hc : p.1 = c
    · rw [if_pos hc] at heq
      rw [← heq]
      exact setAdd_ne_nil _ _
    · rw [if_neg hc] at heq
      exact heq ▸ h p hp
  · rw [presenceJoin, if_neg hany] at hcu
    rcases List.mem_append.mp hcu with h' | h'
    · exact h cu h'
    · simp only [List.mem_singleton] at h'
      rw [h']
      simp

theorem userInSet_presenceLeave (m : PresenceMap) (c u c' u' : String) :
    userInSet (presenceLeave m c u) c' u' ↔
      userInSet m c' u' ∧ (c' = c → u' ≠ u) := by
  by_cases hany : m.any (fun p => p.1 = c)
  · rw [presenceLeave, if_pos hany]
    constructor
    · rintro ⟨us, hmem, hu⟩
      rw [List.mem_filter] at hmem
      obtain ⟨hmem, -⟩ := hmem
      rw [List.mem_map] at hmem
      obtain ⟨⟨c₀, us₀⟩, h₀, heq⟩ := hmem
      by_cases hc : c₀ = c
      · rw [if_pos (by simpa using hc)] at heq
        obtain ⟨hc', hus⟩ := Prod.mk.inj heq
        have hu' := hus ▸ hu
        rw [List.mem_filter] at hu'
        refine ⟨⟨us₀, hc' ▸ hc ▸ h₀, hu'.1⟩, fun _ => ?_⟩
        simpa using hu'.2
      · rw [if_neg (by simpa using hc)] at heq
        obtain ⟨hc', hus⟩ := Prod.mk.inj heq
        exact ⟨⟨us₀, hc' ▸ h₀, hus ▸ hu⟩, fun hcc => absurd (hc' ▸ hcc) hc⟩
    · rintro ⟨⟨us, hmem, hu⟩, hne⟩
      by_cases hc : c' = c
      · have hu' : u' ≠ u := hne hc
        refine ⟨us.filter (fun x => x ≠ u), ?_, ?_⟩
        · rw [List.mem_filter]
          constructor
          · have := List.mem_map_of_mem
              (fun p : String × List String =>
                if p.1 = c then (c, p.2.filter (fun x => x ≠ u)) else p) hmem
            simpa [hc] using this
          · simp
            exact Or.inr ⟨u', hu, hu'⟩
        · rw [List.mem_filter]
          exact ⟨hu, by simpa using hu'⟩
      · refine ⟨us, ?_, hu⟩
        rw [List.mem_filter]
        constructor
        · have := List.mem_map_of_mem
            (fun p : String × List String =>
              if p.1 = c then (c, p.2.filter (fun x => x ≠ u)) else p) hmem
          simpa [hc] using this
        · simp [hc]
  · rw [presenceLeave, if_neg hany]
    constructor
    · intro h
      refine ⟨h, fun hcc => ?_⟩
      exfalso
      obtain ⟨us, hmem, -⟩ := h
      exact hany (List.any_eq_true.mpr ⟨(c', us), hmem, by simp [hcc]⟩)
    · exact And.left

theorem presenceLeave_sets_ne_nil (m : PresenceMap) (c u : String)
    (h : ∀ cu ∈ m, cu.2 ≠ []) : ∀ cu ∈ presenceLeave m c u, cu.2 ≠ [] := by
  intro cu hcu
  by_cases hany : m.any (fun p => p.1 = c)
  · rw [presenceLeave, if_pos hany] at hcu
    rw [List.mem_filter] at hcu
    obtain ⟨hmem, hcond⟩ := hcu
    rw [List.mem_map] at hmem
    obtain ⟨p, hp, heq⟩ := hmem
    by_cases hc : p.1 = c
    · rw [if_pos hc] at heq
      intro hnil
      rw [← heq] at hcond hnil
      simp at hcond
      obtain ⟨x, hx, hxu⟩ := hcond
      have hxf : x ∈ p.2.filter (fun y => y ≠ u) :=
        List.mem_filter.mpr ⟨hx, by simpa using hxu⟩
      have hnil' : p.2.filter (fun y => y ≠ u) = [] := hnil
      rw [hnil'] at hxf
      cases hxf
    · rw [if_neg hc] at heq
      exact heq ▸ h p hp
  · rw [presenceLeave, if_neg hany] at hcu
    exact h cu hcu

theorem attemptCalls_map_record (outcomes : Nat → CallOutcome) :
    ∀ (i : Nat) (rs : List NotifRecord),
      (attemptCalls outcomes i rs).map (fun a => a.record) = rs := by
  intro i rs
  induction rs generalizing i with
  | nil => rfl
  | cons r rs ih => simp [attemptCalls, ih]

/-! ## Claims -/

/-- **C7** (confirmed): `broadcastToConversation(conversationId, envelope,
excludeConnection)` sends the envelope to exactly those registered open
connections whose session conversationId equals the target — never to a
connection with a different or absent conversationId, never to the excluded
connection — and is a no-op when `conversationId` is absent or empty (it
returns no sends, and being a pure function of the registry it leaves all
state unchanged). -/
theorem C7_broadcastToConversation_exact (isOpen : Conn → Bool)
    (clients : Registry) (cid : String) (hcid : cid ≠ "") (data : Envelope)
    (sender : Conn) :
    (∀ c env,
      (c, env) ∈ broadcastToConversation isOpen clients (some cid) data sender ↔
        (env = data ∧ c ≠ sender ∧ isOpen c = true ∧
          ∃ info, (c, info) ∈ clients ∧ info.conversationId = some cid)) ∧
    broadcastToConversation isOpen clients none data sender = [] ∧
    broadcastToConversation isOpen clients (some "") data sender = [] := by
  refine ⟨fun c env => ?_, rfl, by rw [broadcastToConversation]; simp⟩
  rw [broadcastToConversation, if_neg hcid, List.mem_filterMap]
  constructor
  · rintro ⟨⟨c₀, info⟩, hp, hf⟩
    split at hf
    · rename_i hcond
      obtain ⟨h1, h2⟩ := Prod.mk.inj (Option.some.inj hf)
      subst h1
      exact ⟨h2.symm, hcond.1, hcond.2.1, info, hp, hcond.2.2⟩
    · cases hf
  · rintro ⟨rfl, hns, hop, info, hmem, hconv⟩
    exact ⟨(c, info), hmem, by simp [hns, hop, hconv]⟩

/-- Witness for C7: concrete three-connection registry, conversation "c1". -/
theorem C7_broadcastToConversation_exact_witness :
    ("c1" : String) ≠ "" ∧
    broadcastToConversation (fun _ => true)
      [(0, ⟨some "c1", some "u1", 0⟩), (1, ⟨some "c1", some "u2", 0⟩),
       (2, ⟨some "c2", none, 0⟩)] none (Envelope.userPresence "x" true) 0 = [] :=
  ⟨by decide,
   (C7_broadcastToConversation_exact (fun _ => true)
      [(0, ⟨some "c1", some "u1", 0⟩), (1, ⟨some "c1", some "u2", 0⟩),
       (2, ⟨some "c2", none, 0⟩)] "c1" (by decide)
      (Envelope.userPresence "x" true) 0).2.1⟩

/-- **C6** (confirmed): a `follow` event whose `action` is not exactly
"follow" (e.g. "unfollow") issues no persistence call and delivers no
envelope to any connection: the handler's effects are empty. -/
theorem C6_follow_other_action_ignored (isOpen : Conn → Bool)
    (clients : Registry) (outcome : CallOutcome) (now : Nat) (e : FollowEvent)
    (h : e.action ≠ some "follow") :
    handleFollow isOpen clients outcome now e = ⟨[], [], []⟩ := by
  rw [handleFollow, if_neg h]

/-- Witness for C6: a concrete "unfollow" event while the target is online. -/
theorem C6_follow_other_action_ignored_witness :
    (FollowEvent.mk (some "unfollow") (some "u2") (some "u1") (some "Alice")
        none).action ≠ some "follow" ∧
    handleFollow (fun _ => true) [(0, ⟨none, some "u2", 0⟩)] .success 7
      (FollowEvent.mk (some "unfollow") (some "u2") (some "u1") (some "Alice")
        none) = ⟨[], [], []⟩ :=
  ⟨by decide,
   C6_follow_other_action_ignored (fun _ => true) [(0, ⟨none, some "u2", 0⟩)]
     .success 7 _ (by decide)⟩

/-- **C5** (confirmed): a `follow` event with action exactly "follow" issues
exactly one `saveNotification` call, for the followed user, with type
"follow" (and no activity call); then, if the followed user has an open
registered connection, exactly two envelopes — a `new_notification` and a
legacy `follow_notification` — are delivered directly to the one connection
`getSocketForUser` picked, and to no other connection; if the followed user
has no open connection, nothing is delivered. -/
theorem C5_follow_action_follow (isOpen : Conn → Bool) (clients : Registry)
    (outcome : CallOutcome) (now : Nat) (e : FollowEvent) (f : String)
    (hact : e.action = some "follow") (hf : e.followedId = some f) :
    ((handleFollow isOpen clients outcome now e).notifs.map
        (fun a => a.record.user_id) = [some f] ∧
      ∀ a ∈ (handleFollow isOpen clients outcome now e).notifs,
        a.record.ntype = "follow") ∧
    (handleFollow isOpen clients outcome now e).activities = [] ∧
    ((∃ p ∈ clients, p.2.userId = some f ∧ isOpen p.1 = true) ↔
      ∃ sock, getSocketForUser isOpen clients e.followedId = some sock) ∧
    (∀ sock, getSocketForUser isOpen clients e.followedId = some sock →
      (handleFollow isOpen clients outcome now e).sends.map Prod.fst =
          [sock, sock] ∧
      ∃ body t,
        (handleFollow isOpen clients outcome now e).sends =
          [(sock, Envelope.newNotification (some f) "follow" "New Follower"
              body),
           (sock, Envelope.followNotification e.followerId (some f)
              e.followerName (some "follow") t)]) ∧
    (getSocketForUser isOpen clients e.followedId = none →
      (handleFollow isOpen clients outcome now e).sends = []) := by
  refine ⟨⟨?_, ?_⟩, ?_, ?_, ?_, ?_⟩
  · rw [handleFollow, if_pos hact, hf]
    rcases getSocketForUser isOpen clients (some f) with _ | sock <;> rfl
  · rw [handleFollow, if_pos hact]
    intro a ha
    rcases getSocketForUser isOpen clients e.followedId with _ | sock <;>
      · simp at ha
        rw [ha]
  · rw [handleFollow, if_pos hact]
  · rw [hf]
    constructor
    · rintro ⟨p, hp, hu, ho⟩
      have hsome :
          (clients.find?
            (fun q => jsStrictEqOpt q.2.userId (some f) && isOpen q.1)).isSome :=
        List.find?_isSome.mpr
          ⟨p, hp, by
            rw [Bool.and_eq_true, jsStrictEqOpt_some_right]
            exact ⟨hu, ho⟩⟩
      obtain ⟨q, hq⟩ := Option.isSome_iff_exists.mp hsome
      exact ⟨q.1, by rw [getSocketForUser, hq]; rfl⟩
    · rintro ⟨sock, hsock⟩
      rw [getSocketForUser] at hsock
      rcases hfind : clients.find?
          (fun q => jsStrictEqOpt q.2.userId (some f) && isOpen q.1) with _ | q
      · rw [hfind] at hsock
        cases hsock
      · have hq := List.find?_some hfind
        rw [Bool.and_eq_true, jsStrictEqOpt_some_right] at hq
        exact ⟨q, List.mem_of_find?_eq_some hfind, hq.1, hq.2⟩
  · intro sock hsock
    rw [handleFollow, if_pos hact, hsock, hf, hact]
    exact ⟨rfl, _, _, rfl⟩
  · intro hnone
    rw [handleFollow, if_pos hact, hnone]

/-- Witness for C5: Alice (u1) follows u2 while u2 is connected. -/
theorem C5_follow_action_follow_witness :
    (FollowEvent.mk (some "follow") (some "u2") (some "u1") (some "Alice")
        none).action = some "follow" ∧
    (FollowEvent.mk (some "follow") (some "u2") (some "u1") (some "Alice")
        none).followedId = some "u2" ∧
    (handleFollow (fun _ => true)
        [(0, ⟨none, some "u1", 0⟩), (1, ⟨none, some "u2", 0⟩)] .success 7
        (FollowEvent.mk (some "follow") (some "u2") (some "u1") (some "Alice")
          none)).notifs.map (fun a => a.record.user_id) = [some "u2"] :=
  ⟨rfl, rfl,
   (C5_follow_action_follow (fun _ => true)
      [(0, ⟨none, some "u1", 0⟩), (1, ⟨none, some "u2", 0⟩)] .success 7 _ "u2"
      rfl rfl).1.1⟩

theorem length_filter_attempts (outcomes : Nat → CallOutcome)
    (q : NotifRecord → Bool) :
    ∀ (i : Nat) (rs : List NotifRecord),
      ((attemptCalls outcomes i rs).filter (fun a => q a.record)).length =
        (rs.filter q).length := by
  intro i rs
  induction rs generalizing i with
  | nil => rfl
  | cons r t ih =>
    by_cases h : q r <;> simp [attemptCalls, h, ih]

theorem length_filter_user_id_recs (m : ChatMessage) (x : Option String) :
    ∀ P' : List String,
      ((P'.map (notifRecordFor m)).filter
        (fun r => r.user_id = x)).length =
      (P'.filter (fun p => some p = x)).length := by
  intro P'
  induction P' with
  | nil => rfl
  | cons a t ih =>
    by_cases h : some a = x <;> simp [notifRecordFor, h, ih]

theorem length_filter_eq_count (l : List String) (a : String) :
    (l.filter (fun x => x = a)).length = l.count a := by
  rw [List.count, List.countP_eq_length_filter]
  congr 1

/-- **C3** (confirmed): a failed participant-directory query aborts the whole
notification pass — no `saveNotification` and no `saveUserActivity` attempt
is made — and the error stays inside the pass: the handler's live fan-out
does not depend on the query result at all.  A failure of one individual
persistence call, in contrast, is caught inside that call: the list of
attempted requests of the pass is the same under every assignment of
per-call outcomes. -/
theorem C3_notification_pass_failure_policy (m : ChatMessage)
    (P : List String) (o o' : Nat → CallOutcome) (isOpen : Conn → Bool)
    (st : ServerState) (ws : Conn) (q q' : Except Unit (List String)) :
    saveMessageNotificationsForAll (.error ()) o m = ([], []) ∧
    (saveMessageNotificationsForAll (.ok P) o m).1.map (fun a => a.record) =
      (saveMessageNotificationsForAll (.ok P) o' m).1.map (fun a => a.record) ∧
    (saveMessageNotificationsForAll (.ok P) o m).2.map (fun a => a.record) =
      (saveMessageNotificationsForAll (.ok P) o' m).2.map (fun a => a.record) ∧
    (handleNewMessage isOpen st q o ws m).sends =
      (handleNewMessage isOpen st q' o' ws m).sends := by
  refine ⟨rfl, ?_, rfl, rfl⟩
  show (attemptCalls o 0
      ((P.filter (fun uid => some uid ≠ m.sender_id)).map
        (notifRecordFor m))).map (fun a => a.record) =
    (attemptCalls o' 0
      ((P.filter (fun uid => some uid ≠ m.sender_id)).map
        (notifRecordFor m))).map (fun a => a.record)
  rw [attemptCalls_map_record, attemptCalls_map_record]

/-- **C2** (confirmed): for a `new_message` whose participant query succeeds
with a duplicate-free participant list P and whose sender is s, the
dispatcher attempts exactly one `saveNotification` per participant of P
other than s (none for s), whatever the individual call outcomes, and
exactly one `saveUserActivity` attributed to s whose `recipient_count` is
|P| - 1. -/
theorem C2_message_persistence_exact (P : List String)
    (outcomes : Nat → CallOutcome) (m : ChatMessage) (s : String)
    (hs : m.sender_id = some s) (hnd : P.Nodup) :
    (saveMessageNotificationsForAll (.ok P) outcomes m).1.map
        (fun a => a.record.user_id) = (P.filter (fun p => p ≠ s)).map some ∧
    (∀ p ∈ P, p ≠ s →
      ((saveMessageNotificationsForAll (.ok P) outcomes m).1.filter
        (fun a => a.record.user_id = some p)).length = 1) ∧
    ((saveMessageNotificationsForAll (.ok P) outcomes m).1.filter
        (fun a => a.record.user_id = some s)).length = 0 ∧
    (saveMessageNotificationsForAll (.ok P) outcomes m).2.map
        (fun a => (a.record.user_id, a.record.recipient_count)) =
      [(some s, (P.length : Int) - 1)] := by
  have hfilters : P.filter (fun uid => some uid ≠ m.sender_id) =
      P.filter (fun p => p ≠ s) := by
    apply List.filter_congr
    intro x _
    simp [hs]
  have hunfold : (saveMessageNotificationsForAll (.ok P) outcomes m).1 =
      attemptCalls outcomes 0
        ((P.filter (fun uid => some uid ≠ m.sender_id)).map
          (notifRecordFor m)) := rfl
  refine ⟨?_, ?_, ?_, ?_⟩
  · have hcomp : (fun a : NotifAttempt => a.record.user_id) =
        (fun r : NotifRecord => r.user_id) ∘ (fun a : NotifAttempt => a.record) :=
      rfl
    rw [hcomp, ← List.map_map, hunfold, attemptCalls_map_record, hfilters,
      List.map_map]
    rfl
  · intro p hp hps
    rw [hunfold, hfilters,
      length_filter_attempts outcomes (fun r => r.user_id = some p),
      length_filter_user_id_recs]
    have hpred : (P.filter (fun p' => p' ≠ s)).filter
        (fun x => some x = some p) =
        (P.filter (fun p' => p' ≠ s)).filter (fun x => x = p) := by
      apply List.filter_congr
      intro x _
      simp
    rw [hpred, length_filter_eq_count]
    exact List.count_eq_one_of_mem (hnd.filter _)
      (List.mem_filter.mpr ⟨hp, by simp [hps]⟩)
  · rw [hunfold, hfilters,
      length_filter_attempts outcomes (fun r => r.user_id = some s),
      length_filter_user_id_recs]
    have hpred : (P.filter (fun p' => p' ≠ s)).filter
        (fun x => some x = some s) = [] := by
      rw [List.filter_filter]
      apply List.filter_eq_nil_iff.mpr
      intro x _
      simp
    rw [hpred]
    rfl
  · have h2 : (saveMessageNotificationsForAll (.ok P) outcomes m).2 =
        [⟨⟨m.sender_id, "message_sent", "Message Sent",
            "You sent a message in conversation", (P.length : Int) - 1⟩,
          outcomes (P.filter (fun uid => some uid ≠ m.sender_id)).length⟩] :=
      rfl
    rw [h2]
    simp [hs]

/-- Witness for C2: participants [u1,u2,u3], sender u1. -/
theorem C2_message_persistence_exact_witness :
    (ChatMessage.mk (some "c1") (some "u1") (some "hi")
        (some ⟨none, some "alice"⟩) (some "m1")).sender_id = some "u1" ∧
    (["u1", "u2", "u3"] : List String).Nodup ∧
    (saveMessageNotificationsForAll (.ok ["u1", "u2", "u3"])
        (fun _ => .success)
        (ChatMessage.mk (some "c1") (some "u1") (some "hi")
          (some ⟨none, some "alice"⟩) (some "m1"))).1.map
      (fun a => a.record.user_id) =
      ((["u1", "u2", "u3"] : List String).filter (fun p => p ≠ "u1")).map some :=
  ⟨rfl, by decide,
   (C2_message_persistence_exact ["u1", "u2", "u3"] (fun _ => .success) _ "u1"
      rfl (by decide)).1⟩

theorem mem_broadcastToAll_iff (isOpen : Conn → Bool) (clients : Registry)
    (data : Envelope) (sender : Conn) (c : Conn) (env : Envelope) :
    (c, env) ∈ broadcastToAll isOpen clients data sender ↔
      (env = data ∧ c ≠ sender ∧ isOpen c = true ∧
        ∃ i, (c, i) ∈ clients) := by
  rw [broadcastToAll, List.mem_filterMap]
  constructor
  · rintro ⟨⟨c₀, info⟩, hp, hf⟩
    split at hf
    · rename_i hcond
      obtain ⟨h1, h2⟩ := Prod.mk.inj (Option.some.inj hf)
      subst h1
      exact ⟨h2.symm, hcond.1, hcond.2, info, hp⟩
    · cases hf
  · rintro ⟨rfl, hns, hop, info, hmem⟩
    exact ⟨(c, info), hmem, by simp [hns, hop]⟩

theorem broadcastToAll_snd (isOpen : Conn → Bool) (clients : Registry)
    (data : Envelope) (sender : Conn) :
    ∀ p ∈ broadcastToAll isOpen clients data sender,
      p.1 ≠ sender ∧ isOpen p.1 = true ∧ p.2 = data := by
  rintro ⟨c, env⟩ hp
  obtain ⟨rfl, hns, hop, -⟩ := (mem_broadcastToAll_iff _ _ _ _ _ _).mp hp
  exact ⟨hns, hop, rfl⟩

theorem broadcastToConversation_snd (isOpen : Conn → Bool) (clients : Registry)
    (cid : Option String) (data : Envelope) (sender : Conn) :
    ∀ p ∈ broadcastToConversation isOpen clients cid data sender,
      p.1 ≠ sender ∧ isOpen p.1 = true ∧ p.2 = data := by
  rintro ⟨c, env⟩ hp
  rcases cid with _ | s
  · cases hp
  · rw [broadcastToConversation] at hp
    split at hp
    · cases hp
    · rw [List.mem_filterMap] at hp
      obtain ⟨⟨c₀, info⟩, hmem, hf⟩ := hp
      split at hf
      · rename_i hcond
        obtain ⟨h1, h2⟩ := Prod.mk.inj (Option.some.inj hf)
        subst h1
        exact ⟨hcond.1, hcond.2.1, h2.symm⟩
      · cases hf

/-- Characterization of the step-2 live fan-out of `case 'new_message'`: a
registered connection receives the `new_notification` envelope iff it is
open and its session userId is not strictly equal to the message's
sender_id; it additionally receives the step-2 relayed `new_message`
envelope iff moreover its session conversationId equals the message's
conversation_id. -/
theorem handleNewMessage_receives (isOpen : Conn → Bool) (st : ServerState)
    (q : Except Unit (List String)) (o : Nat → CallOutcome) (ws : Conn)
    (m : ChatMessage) (c : Conn) (info : ClientInfo)
    (hnd : (st.clients.map Prod.fst).Nodup) (hmem : (c, info) ∈ st.clients) :
    (receives (handleNewMessage isOpen st q o ws m) c isNewNotification ↔
      (isOpen c = true ∧ jsStrictEqOpt info.userId m.sender_id = false)) ∧
    (receives (handleNewMessage isOpen st q o ws m) c isRelayedNewMessage ↔
      (isOpen c = true ∧ jsStrictEqOpt info.userId m.sender_id = false ∧
        info.conversationId = m.conversation_id)) := by
  have hsends : (handleNewMessage isOpen st q o ws m).sends =
      st.clients.flatMap (fun p =>
        if ¬ jsStrictEqOpt p.2.userId m.sender_id ∧ isOpen p.1 then
          (p.1, Envelope.newNotification p.2.userId "message"
            ("New message from " ++ senderDisplayName m)
            (jsOrStr (m.content.map (fun cc => cc.take 100)) "New message")) ::
          (if p.2.conversationId = m.conversation_id then
            [(p.1, Envelope.relayedNewMessage
                (jsOrStr (m.sender.bind (fun s => s.username)) "Someone")
                m.content m.conversation_id m.id)]
          else [])
        else []) ++
      broadcastToConversation isOpen st.clients m.conversation_id
        (Envelope.rawNewMessage m) ws := rfl
  have hinfo : ∀ info₀ : ClientInfo, (c, info₀) ∈ st.clients → info₀ = info := by
    intro info₀ h₀
    have h1 := mapGet_eq_of_mem hnd h₀
    have h2 := mapGet_eq_of_mem hnd hmem
    rw [h1] at h2
    exact Option.some.inj h2
  constructor
  · constructor
    · rintro ⟨env, hmem', hkind⟩
      rw [hsends, List.mem_append] at hmem'
      rcases hmem' with h | h
      · rw [List.mem_flatMap] at h
        obtain ⟨⟨c₀, info₀⟩, hp, hin⟩ := h
        split at hin
        · rename_i hcond
          rcases List.mem_cons.mp hin with hin | hin
          · obtain ⟨h1, -⟩ := Prod.mk.inj hin
            subst h1
            have : info₀ = info := hinfo info₀ hp
            subst this
            exact ⟨hcond.2, by
              rcases hb : jsStrictEqOpt info₀.userId m.sender_id with _ | _
              · rfl
              · exact absurd hb hcond.1⟩
          · split at hin
            · simp only [List.mem_singleton] at hin
              obtain ⟨-, h2⟩ := Prod.mk.inj hin
              rw [h2] at hkind
              simp [isNewNotification] at hkind
            · cases hin
        · cases hin
      · have henv : env = Envelope.rawNewMessage m :=
          (broadcastToConversation_snd isOpen st.clients
            m.conversation_id (Envelope.rawNewMessage m) ws (c, env) h).2.2
        rw [henv] at hkind
        simp [isNewNotification] at hkind
    · rintro ⟨hopen, hstrict⟩
      refine ⟨Envelope.newNotification info.userId "message"
        ("New message from " ++ senderDisplayName m)
        (jsOrStr (m.content.map (fun cc => cc.take 100)) "New message"),
        ?_, rfl⟩
      rw [hsends, List.mem_append]
      left
      rw [List.mem_flatMap]
      refine ⟨(c, info), hmem, ?_⟩
      rw [if_pos ⟨by simp [hstrict], hopen⟩]
      exact List.mem_cons_self _ _
  · constructor
    · rintro ⟨env, hmem', hkind⟩
      rw [hsends, List.mem_append] at hmem'
      rcases hmem' with h | h
      · rw [List.mem_flatMap] at h
        obtain ⟨⟨c₀, info₀⟩, hp, hin⟩ := h
        split at hin
        · rename_i hcond
          rcases List.mem_cons.mp hin with hin | hin
          · obtain ⟨-, h2⟩ := Prod.mk.inj hin
            rw [h2] at hkind
            simp [isRelayedNewMessage] at hkind
          · split at hin
            · rename_i hconv
              simp only [List.mem_singleton] at hin
              obtain ⟨h1, -⟩ := Prod.mk.inj hin
              subst h1
              have : info₀ = info := hinfo info₀ hp
              subst this
              refine ⟨hcond.2, ?_, hconv⟩
              rcases hb : jsStrictEqOpt info₀.userId m.sender_id with _ | _
              · rfl
              · exact absurd hb hcond.1
            · cases hin
        · cases hin
      · have henv : env = Envelope.rawNewMessage m :=
          (broadcastToConversation_snd isOpen st.clients
            m.conversation_id (Envelope.rawNewMessage m) ws (c, env) h).2.2
        rw [henv] at hkind
        simp [isRelayedNewMessage] at hkind
    · rintro ⟨hopen, hstrict, hconv⟩
      refine ⟨Envelope.relayedNewMessage
        (jsOrStr (m.sender.bind (fun s => s.username)) "Someone")
        m.content m.conversation_id m.id, ?_, rfl⟩
      rw [hsends, List.mem_append]
      left
      rw [List.mem_flatMap]
      refine ⟨(c, info), hmem, ?_⟩
      rw [if_pos ⟨by simp [hstrict], hopen⟩]
      refine List.mem_cons_of_mem _ ?_
      rw [if_pos hconv]
      exact List.mem_singleton.mpr rfl

/-- **C10** (confirmed): in the `new_message` live fan-out, a registered
open connection is excluded iff its session userId strictly equals the
message's sender_id — not iff it is the originating connection.  A second
open connection whose userId equals the sender_id receives neither the
`new_notification` envelope nor the step-2 relayed `new_message` envelope,
while every registered open connection whose userId differs (including a
session with no userId, and including the originating connection itself
when its userId does not match the payload's sender_id) receives the
`new_notification` envelope. -/
theorem C10_fanout_exclusion_by_userId (isOpen : Conn → Bool)
    (st : ServerState) (q : Except Unit (List String)) (o : Nat → CallOutcome)
    (ws : Conn) (m : ChatMessage) (s : String) (hs : m.sender_id = some s)
    (hnd : (st.clients.map Prod.fst).Nodup) :
    ∀ c info, (c, info) ∈ st.clients → isOpen c = true →
      ((receives (handleNewMessage isOpen st q o ws m) c isNewNotification ↔
          info.userId ≠ some s) ∧
        (info.userId = some s →
          ¬ receives (handleNewMessage isOpen st q o ws m) c
              isNewNotification ∧
          ¬ receives (handleNewMessage isOpen st q o ws m) c
              isRelayedNewMessage)) := by
  intro c info hmem hopen
  have hchar := handleNewMessage_receives isOpen st q o ws m c info hnd hmem
  have heqtrue : info.userId = some s →
      jsStrictEqOpt info.userId m.sender_id = true := by
    intro he
    rw [he, hs]
    simp [jsStrictEqOpt]
  constructor
  · rw [hchar.1, hs]
    constructor
    · rintro ⟨-, hfalse⟩
      intro he
      rw [he] at hfalse
      simp [jsStrictEqOpt] at hfalse
    · intro hne
      refine ⟨hopen, ?_⟩
      rcases hb : jsStrictEqOpt info.userId (some s) with _ | _
      · rfl
      · exact absurd ((jsStrictEqOpt_some_right _ _).mp hb) hne
  · intro he
    constructor
    · rw [hchar.1]
      rintro ⟨-, hfalse⟩
      rw [heqtrue he] at hfalse
      cases hfalse
    · rw [hchar.2]
      rintro ⟨-, hfalse, -⟩
      rw [heqtrue he] at hfalse
      cases hfalse

/-- Witness for C10: a single registered connection with userId u2 receives
the notification for a message sent by u1, including when it is the
originating connection. -/
theorem C10_fanout_exclusion_by_userId_witness :
    (ChatMessage.mk (some "c1") (some "u1") (some "hi")
        (some ⟨none, some "alice"⟩) (some "m1")).sender_id = some "u1" ∧
    (([(0, ⟨some "c1", some "u2", 0⟩)] : Registry).map Prod.fst).Nodup ∧
    (receives
        (handleNewMessage (fun _ => true)
          ⟨[(0, ⟨some "c1", some "u2", 0⟩)], []⟩ (.ok ["u1", "u2"])
          (fun _ => .success) 0
          (ChatMessage.mk (some "c1") (some "u1") (some "hi")
            (some ⟨none, some "alice"⟩) (some "m1"))) 0 isNewNotification ↔
      (⟨some "c1", some "u2", 0⟩ : ClientInfo).userId ≠ some "u1") :=
  ⟨rfl, by decide,
   (C10_fanout_exclusion_by_userId (fun _ => true)
     ⟨[(0, ⟨some "c1", some "u2", 0⟩)], []⟩ (.ok ["u1", "u2"])
     (fun _ => .success) 0 _ "u1" rfl (by decide) 0
     ⟨some "c1", some "u2", 0⟩ (by simp) rfl).1⟩

/-- **C1** (corrected).  As stated the claim is false: the step-2 live
fan-out excludes by session userId (strict equality with the message's
sender_id), not by connection identity, and the relayed step-2 `new_message`
envelope is gated on that same userId check besides the conversation match.
Amended: a `new_message` delivers a live `new_notification` envelope to
exactly those registered open connections whose session userId is not
strictly equal to the message's sender_id (regardless of conversation), and
additionally delivers the step-2 relayed `new_message` envelope to exactly
those of them whose session conversationId equals the message's
conversation_id. -/
theorem C1_newMessage_fanout_amended (isOpen : Conn → Bool)
    (st : ServerState) (q : Except Unit (List String)) (o : Nat → CallOutcome)
    (ws : Conn) (m : ChatMessage) (c : Conn) (info : ClientInfo)
    (hnd : (st.clients.map Prod.fst).Nodup) (hmem : (c, info) ∈ st.clients) :
    (receives (handleNewMessage isOpen st q o ws m) c isNewNotification ↔
      (isOpen c = true ∧ jsStrictEqOpt info.userId m.sender_id = false)) ∧
    (receives (handleNewMessage isOpen st q o ws m) c isRelayedNewMessage ↔
      (isOpen c = true ∧ jsStrictEqOpt info.userId m.sender_id = false ∧
        info.conversationId = m.conversation_id)) :=
  handleNewMessage_receives isOpen st q o ws m c info hnd hmem

/-- Counterexample to C1 as stated: connections 0 and 1 are both open, both
registered on conversation "c1" with userId "u1"; connection 0 sends a
`new_message` with sender_id "u1".  Connection 1 is an open connection other
than the sender's, and its conversationId equals the message's, yet it
receives neither a `new_notification` nor a step-2 relayed `new_message`
envelope, because the fan-out excludes it by its userId. -/
theorem C1_newMessage_fanout_counterexample :
    (1 : Conn) ≠ 0 ∧
    ((1 : Conn), (⟨some "c1", some "u1", 0⟩ : ClientInfo)) ∈
      ([(0, ⟨some "c1", some "u1", 0⟩), (1, ⟨some "c1", some "u1", 0⟩)] :
        Registry) ∧
    ∀ p ∈ (handleNewMessage (fun _ => true)
        ⟨[(0, ⟨some "c1", some "u1", 0⟩), (1, ⟨some "c1", some "u1", 0⟩)], []⟩
        (.ok ["u1", "u2"]) (fun _ => .success) 0
        (ChatMessage.mk (some "c1") (some "u1") (some "hi")
          (some ⟨none, some "alice"⟩) (some "m1"))).sends,
      p.1 = 1 →
        isNewNotification p.2 = false ∧ isRelayedNewMessage p.2 = false := by
  refine ⟨by decide, by decide, ?_⟩
  decide

/-- Witness for C1's amended theorem: connection 1 (userId u2, conversation
c1, open) both receives the notification and satisfies the characterization. -/
theorem C1_newMessage_fanout_amended_witness :
    (([(0, ⟨some "c1", some "u1", 0⟩), (1, ⟨some "c1", some "u2", 0⟩)] :
        Registry).map Prod.fst).Nodup ∧
    ((1 : Conn), (⟨some "c1", some "u2", 0⟩ : ClientInfo)) ∈
      ([(0, ⟨some "c1", some "u1", 0⟩), (1, ⟨some "c1", some "u2", 0⟩)] :
        Registry) ∧
    (receives
        (handleNewMessage (fun _ => true)
          ⟨[(0, ⟨some "c1", some "u1", 0⟩), (1, ⟨some "c1", some "u2", 0⟩)],
            []⟩ (.ok ["u1", "u2"]) (fun _ => .success) 0
          (ChatMessage.mk (some "c1") (some "u1") (some "hi")
            (some ⟨none, some "alice"⟩) (some "m1"))) 1 isNewNotification ↔
      ((fun _ : Conn => true) 1 = true ∧
        jsStrictEqOpt (⟨some "c1", some "u2", 0⟩ : ClientInfo).userId
          (ChatMessage.mk (some "c1") (some "u1") (some "hi")
            (some ⟨none, some "alice"⟩) (some "m1")).sender_id = false)) :=
  ⟨by decide, by simp,
   (C1_newMessage_fanout_amended (fun _ => true)
      ⟨[(0, ⟨some "c1", some "u1", 0⟩), (1, ⟨some "c1", some "u2", 0⟩)], []⟩
      (.ok ["u1", "u2"]) (fun _ => .success) 0
      (ChatMessage.mk (some "c1") (some "u1") (some "hi")
        (some ⟨none, some "alice"⟩) (some "m1")) 1
      ⟨some "c1", some "u2", 0⟩ (by decide) (by simp)).1⟩

/-- **C9** (confirmed): a connection whose channel is not open is removed
from the registry by the reaper sweep, and no fan-out of the server — the
two broadcast helpers, the `new_message` fan-out, the follow direct
delivery, and the connect/close presence broadcasts — ever attempts a
delivery to a connection whose channel is not open. -/
theorem C9_dead_connection_unreachable (isOpen : Conn → Bool)
    (st : ServerState) (c : Conn) (hdead : isOpen c = false) :
    (∀ p ∈ (reaperSweep isOpen st).clients, p.1 ≠ c) ∧
    (∀ clients data sender, ∀ p ∈ broadcastToAll isOpen clients data sender,
      p.1 ≠ c) ∧
    (∀ clients cid data sender,
      ∀ p ∈ broadcastToConversation isOpen clients cid data sender, p.1 ≠ c) ∧
    (∀ q o ws m, ∀ p ∈ (handleNewMessage isOpen st q o ws m).sends,
      p.1 ≠ c) ∧
    (∀ clients oc now e, ∀ p ∈ (handleFollow isOpen clients oc now e).sends,
      p.1 ≠ c) ∧
    (∀ ws cid uid now, ∀ p ∈ (handleConnect isOpen st ws cid uid now).2,
      p.1 ≠ c) ∧
    (∀ ws cid uid, ∀ p ∈ (handleClose isOpen st ws cid uid).2, p.1 ≠ c) := by
  have hall : ∀ clients data sender,
      ∀ p ∈ broadcastToAll isOpen clients data sender, p.1 ≠ c := by
    rintro clients data sender ⟨c₀, env⟩ hp rfl
    have := (broadcastToAll_snd isOpen clients data sender _ hp).2.1
    rw [hdead] at this
    cases this
  have hconv : ∀ clients cid data sender,
      ∀ p ∈ broadcastToConversation isOpen clients cid data sender,
        p.1 ≠ c := by
    rintro clients cid data sender ⟨c₀, env⟩ hp rfl
    have := (broadcastToConversation_snd isOpen clients cid data sender _
      hp).2.1
    rw [hdead] at this
    cases this
  refine ⟨?_, hall, hconv, ?_, ?_, ?_, ?_⟩
  · rintro p hp rfl
    have := List.of_mem_filter hp
    rw [hdead] at this
    cases this
  · intro q o ws m p hp
    have hsends : (handleNewMessage isOpen st q o ws m).sends =
        st.clients.flatMap (fun r =>
          if ¬ jsStrictEqOpt r.2.userId m.sender_id ∧ isOpen r.1 then
            (r.1, Envelope.newNotification r.2.userId "message"
              ("New message from " ++ senderDisplayName m)
              (jsOrStr (m.content.map (fun cc => cc.take 100))
                "New message")) ::
            (if r.2.conversationId = m.conversation_id then
              [(r.1, Envelope.relayedNewMessage
                  (jsOrStr (m.sender.bind (fun s => s.username)) "Someone")
                  m.content m.conversation_id m.id)]
            else [])
          else []) ++
        broadcastToConversation isOpen st.clients m.conversation_id
          (Envelope.rawNewMessage m) ws := rfl
    rw [hsends, List.mem_append] at hp
    rcases hp with hp | hp
    · rw [List.mem_flatMap] at hp
      obtain ⟨r, hr, hin⟩ := hp
      split at hin
      · rename_i hcond
        have hro : r.1 ≠ c := by
          rintro rfl
          rw [hdead] at hcond
          exact absurd hcond.2 (by simp)
        rcases List.mem_cons.mp hin with hin | hin
        · rw [hin]
          exact hro
        · split at hin
          · simp only [List.mem_singleton] at hin
            rw [hin]
            exact hro
          · cases hin
      · cases hin
    · exact hconv st.clients m.conversation_id (Envelope.rawNewMessage m) ws
        p hp
  · intro clients oc now e p hp
    rw [handleFollow] at hp
    split at hp
    · rcases hsock : getSocketForUser isOpen clients e.followedId with _ | sock
      · rw [hsock] at hp
        cases hp
      · rw [hsock] at hp
        have hope : isOpen sock = true := by
          rw [getSocketForUser] at hsock
          rcases hfind : clients.find?
              (fun r => jsStrictEqOpt r.2.userId e.followedId && isOpen r.1)
            with _ | r
          · rw [hfind] at hsock
            cases hsock
          · rw [hfind] at hsock
            have := List.find?_some hfind
            rw [Bool.and_eq_true] at this
            have hr1 : r.1 = sock := Option.some.inj hsock
            rw [← hr1]
            exact this.2
        have hsne : sock ≠ c := by
          rintro rfl
          rw [hdead] at hope
          cases hope
        rcases List.mem_cons.mp hp with hp | hp
        · rw [hp]
          exact hsne
        · simp only [List.mem_singleton] at hp
          rw [hp]
          exact hsne
    · cases hp
  · intro ws cid uid now p hp
    rcases uid with _ | u
    · simp [handleConnect] at hp
    · by_cases hu : u = ""
      · simp [handleConnect, hu] at hp
      · simp [handleConnect, hu] at hp
        exact hall _ _ _ p hp
  · intro ws cid uid p hp
    rcases hg : mapGet st.clients ws with _ | info
    · simp [handleClose, hg] at hp
    · rcases hui : info.userId with _ | u
      · simp [handleClose, hg, hui] at hp
      · by_cases hu : u = ""
        · simp [handleClose, hg, hui, hu] at hp
        · simp [handleClose, hg, hui, hu] at hp
          exact hall _ _ _ p hp

/-- Witness for C9: a concrete dead connection 1 in a two-entry registry is
gone after the sweep. -/
theorem C9_dead_connection_unreachable_witness :
    (fun n : Conn => n == 0) 1 = false ∧
    ∀ p ∈ (reaperSweep (fun n : Conn => n == 0)
        ⟨[(0, ⟨some "c1", some "u1", 0⟩), (1, ⟨some "c1", some "u2", 0⟩)],
          [("c1", ["u1", "u2"])]⟩).clients, p.1 ≠ 1 :=
  ⟨rfl,
   (C9_dead_connection_unreachable (fun n : Conn => n == 0)
      ⟨[(0, ⟨some "c1", some "u1", 0⟩), (1, ⟨some "c1", some "u2", 0⟩)],
        [("c1", ["u1", "u2"])]⟩ 1 rfl).1⟩

theorem mem_mapSet_of_ne {m : Registry} {k : Conn} {v : ClientInfo}
    {p : Conn × ClientInfo} (hp : p ∈ m) (hne : p.1 ≠ k) :
    p ∈ mapSet m k v := by
  rw [mapSet]
  split
  · have := List.mem_map_of_mem
      (fun q : Conn × ClientInfo => if q.1 = k then (k, v) else q) hp
    simpa [hne] using this
  · exact List.mem_append.mpr (Or.inl hp)

/-- **C8** (confirmed): on connect with a (truthy) userId, a
`user_presence{isOnline:true}` envelope is broadcast to every other
currently-open registered connection and never to the connecting connection
itself; on explicit close of a session whose stored userId is present, a
`user_presence{isOnline:false}` envelope is broadcast — computed over the
registry still containing the closing session, i.e. before the entry is
removed — to every other open registered connection and never to the
closing connection, and only then is the entry deleted from the registry. -/
theorem C8_presence_broadcasts (isOpen : Conn → Bool) (st : ServerState)
    (ws : Conn) (cid : Option String) (u : String) (hu : u ≠ "") (now : Nat)
    (cidArg uidArg : Option String) (info : ClientInfo)
    (hreg : mapGet st.clients ws = some info) (u' : String)
    (hui : info.userId = some u') (hu' : u' ≠ "") :
    ((∀ c cinfo, (c, cinfo) ∈ st.clients → c ≠ ws → isOpen c = true →
        (c, Envelope.userPresence u true) ∈
          (handleConnect isOpen st ws cid (some u) now).2) ∧
      (∀ p ∈ (handleConnect isOpen st ws cid (some u) now).2,
        p.1 ≠ ws ∧ p.2 = Envelope.userPresence u true)) ∧
    ((∀ c cinfo, (c, cinfo) ∈ st.clients → c ≠ ws → isOpen c = true →
        (c, Envelope.userPresence u' false) ∈
          (handleClose isOpen st ws cidArg uidArg).2) ∧
      (∀ p ∈ (handleClose isOpen st ws cidArg uidArg).2,
        p.1 ≠ ws ∧ p.2 = Envelope.userPresence u' false) ∧
      (handleClose isOpen st ws cidArg uidArg).1.clients =
        mapDelete st.clients ws) := by
  have hcsend : (handleConnect isOpen st ws cid (some u) now).2 =
      broadcastToAll isOpen
        (mapSet st.clients ws ⟨cid, some u, now⟩)
        (Envelope.userPresence u true) ws := by
    simp [handleConnect, hu]
  have hdsend : (handleClose isOpen st ws cidArg uidArg).2 =
      broadcastToAll isOpen st.clients (Envelope.userPresence u' false) ws := by
    simp [handleClose, hreg, hui, hu']
  refine ⟨⟨?_, ?_⟩, ?_, ?_, rfl⟩
  · intro c cinfo hmem hne hopen
    rw [hcsend]
    exact (mem_broadcastToAll_iff _ _ _ _ _ _).mpr
      ⟨rfl, hne, hopen, cinfo, mem_mapSet_of_ne hmem hne⟩
  · intro p hp
    rw [hcsend] at hp
    have := broadcastToAll_snd _ _ _ _ p hp
    exact ⟨this.1, this.2.2⟩
  · intro c cinfo hmem hne hopen
    rw [hdsend]
    exact (mem_broadcastToAll_iff _ _ _ _ _ _).mpr
      ⟨rfl, hne, hopen, cinfo, hmem⟩
  · intro p hp
    rw [hdsend] at hp
    have := broadcastToAll_snd _ _ _ _ p hp
    exact ⟨this.1, this.2.2⟩

/-- Witness for C8: connection 0 (user u1) closes while connection 1 stays
open; connection 1 gets the offline presence envelope. -/
theorem C8_presence_broadcasts_witness :
    ("u9" : String) ≠ "" ∧
    mapGet [(0, ⟨some "c1", some "u1", 5⟩), (1, ⟨some "c1", some "u2", 5⟩)] 0 =
      some ⟨some "c1", some "u1", 5⟩ ∧
    (⟨some "c1", some "u1", 5⟩ : ClientInfo).userId = some "u1" ∧
    ("u1" : String) ≠ "" ∧
    ((1 : Conn), Envelope.userPresence "u1" false) ∈
      (handleClose (fun _ => true)
        ⟨[(0, ⟨some "c1", some "u1", 5⟩), (1, ⟨some "c1", some "u2", 5⟩)],
          [("c1", ["u1", "u2"])]⟩ 0 (some "c1") (some "u1")).2 :=
  ⟨by decide, by decide, rfl, by decide,
   ((C8_presence_broadcasts (fun _ => true)
      ⟨[(0, ⟨some "c1", some "u1", 5⟩), (1, ⟨some "c1", some "u2", 5⟩)],
        [("c1", ["u1", "u2"])]⟩ 0 (some "c9") "u9" (by decide) 7
      (some "c1") (some "u1") ⟨some "c1", some "u1", 5⟩ (by decide) "u1" rfl
      (by decide)).2.1) 1 ⟨some "c1", some "u2", 5⟩ (by simp) (by decide) rfl⟩

theorem presenceInvariant_append_nopair (st : ServerState) (ws : Conn)
    (v : ClientInfo) (hinv : presenceInvariant st)
    (hnp : ∀ c u, ¬ hasPair v c u) :
    presenceInvariant ⟨st.clients ++ [(ws, v)], st.active⟩ := by
  constructor
  · intro c u
    show userInSet st.active c u ↔
      ∃ p ∈ st.clients ++ [(ws, v)], hasPair p.2 c u
    constructor
    · intro h
      obtain ⟨p, hp, hpair⟩ := (hinv.1 c u).mp h
      exact ⟨p, List.mem_append.mpr (Or.inl hp), hpair⟩
    · rintro ⟨p, hp, hpair⟩
      rcases List.mem_append.mp hp with hp | hp
      · exact (hinv.1 c u).mpr ⟨p, hp, hpair⟩
      · simp only [List.mem_singleton] at hp
        rw [hp] at hpair
        exact absurd hpair (hnp c u)
  · exact hinv.2

theorem presenceInvariant_append_pair (st : ServerState) (ws : Conn)
    (cc uu : String) (v : ClientInfo) (hinv : presenceInvariant st)
    (hv : ∀ c u, hasPair v c u ↔ (c = cc ∧ u = uu)) :
    presenceInvariant
      ⟨st.clients ++ [(ws, v)], presenceJoin st.active cc uu⟩ := by
  constructor
  · intro c u
    show userInSet (presenceJoin st.active cc uu) c u ↔
      ∃ p ∈ st.clients ++ [(ws, v)], hasPair p.2 c u
    rw [userInSet_presenceJoin]
    constructor
    · rintro (h | ⟨hceq, hueq⟩)
      · obtain ⟨p, hp, hpair⟩ := (hinv.1 c u).mp h
        exact ⟨p, List.mem_append.mpr (Or.inl hp), hpair⟩
      · exact ⟨(ws, v), List.mem_append.mpr (Or.inr (by simp)),
          (hv c u).mpr ⟨hceq, hueq⟩⟩
    · rintro ⟨p, hp, hpair⟩
      rcases List.mem_append.mp hp with hp | hp
      · exact Or.inl ((hinv.1 c u).mpr ⟨p, hp, hpair⟩)
      · simp only [List.mem_singleton] at hp
        rw [hp] at hpair
        exact Or.inr ((hv c u).mp hpair)
  · exact presenceJoin_sets_ne_nil _ _ _ hinv.2

theorem presenceInvariant_delete_nopair (st : ServerState) (ws : Conn)
    (info : ClientInfo) (hinv : presenceInvariant st)
    (hnd : (st.clients.map Prod.fst).Nodup)
    (hreg : mapGet st.clients ws = some info)
    (hnp : ∀ c u, ¬ hasPair info c u) :
    presenceInvariant ⟨mapDelete st.clients ws, st.active⟩ := by
  constructor
  · intro c u
    show userInSet st.active c u ↔
      ∃ p ∈ mapDelete st.clients ws, hasPair p.2 c u
    constructor
    · intro h
      obtain ⟨p, hp, hpair⟩ := (hinv.1 c u).mp h
      have hpne : p.1 ≠ ws := by
        intro heq
        have hpget : mapGet st.clients ws = some p.2 := by
          rw [← heq]
          exact mapGet_eq_of_mem hnd hp
        rw [hreg] at hpget
        have hpi : p.2 = info := (Option.some.inj hpget).symm
        rw [hpi] at hpair
        exact hnp c u hpair
      exact ⟨p, List.mem_filter.mpr ⟨hp, by simpa using hpne⟩, hpair⟩
    · rintro ⟨p, hp, hpair⟩
      exact (hinv.1 c u).mpr ⟨p, (List.mem_filter.mp hp).1, hpair⟩
  · exact hinv.2

theorem presenceInvariant_delete_pair (st : ServerState) (ws : Conn)
    (info : ClientInfo) (cc uu : String) (hinv : presenceInvariant st)
    (hnd : (st.clients.map Prod.fst).Nodup)
    (hreg : mapGet st.clients ws = some info)
    (hcv : info.conversationId = some cc) (hui : info.userId = some uu)
    (huniq : ∀ p ∈ st.clients, p.1 ≠ ws → ¬ hasPair p.2 cc uu) :
    presenceInvariant
      ⟨mapDelete st.clients ws, presenceLeave st.active cc uu⟩ := by
  constructor
  · intro c u
    show userInSet (presenceLeave st.active cc uu) c u ↔
      ∃ p ∈ mapDelete st.clients ws, hasPair p.2 c u
    rw [userInSet_presenceLeave]
    constructor
    · rintro ⟨hin, himp⟩
      obtain ⟨p, hp, hpair⟩ := (hinv.1 c u).mp hin
      have hpne : p.1 ≠ ws := by
        intro heq
        have hpget : mapGet st.clients ws = some p.2 := by
          rw [← heq]
          exact mapGet_eq_of_mem hnd hp
        rw [hreg] at hpget
        have hpi : p.2 = info := (Option.some.inj hpget).symm
        rw [hpi] at hpair
        obtain ⟨h1, h2, -, -⟩ := hpair
        rw [hcv] at h1
        rw [hui] at h2
        exact himp (Option.some.inj h1).symm (Option.some.inj h2).symm
      exact ⟨p, List.mem_filter.mpr ⟨hp, by simpa using hpne⟩, hpair⟩
    · rintro ⟨p, hp, hpair⟩
      have hp' := List.mem_filter.mp hp
      have hpc : p ∈ st.clients := hp'.1
      have hpne : p.1 ≠ ws := by simpa using hp'.2
      refine ⟨(hinv.1 c u).mpr ⟨p, hpc, hpair⟩, ?_⟩
      intro hceq hueq
      apply huniq p hpc hpne
      rw [← hceq, ← hueq]
      exact hpair
  · exact presenceLeave_sets_ne_nil _ _ _ hinv.2

/-- **C4** (corrected).  As stated the claim is false: the reaper sweep
deletes dead registry entries but never updates the conversation-presence
map, so after a sweep the map can retain a user none of whose registered
sessions still exist (see the counterexample).  Amended: the invariant — a
user identifier is in the set of a conversation iff at least one registered
session carries that (userId, conversationId) pair, with empty sets deleted
— is preserved by every connect of a fresh connection, and by every explicit
close whose session's (userId, conversationId) pair is carried by no other
registered session; the reaper sweep leaves the presence map completely
unchanged. -/
theorem C4_presence_invariant_amended :
    (∀ (isOpen : Conn → Bool) (st : ServerState) (ws : Conn)
        (cid uid : Option String) (now : Nat), presenceInvariant st →
      mapGet st.clients ws = none →
      presenceInvariant (handleConnect isOpen st ws cid uid now).1) ∧
    (∀ (isOpen : Conn → Bool) (st : ServerState) (ws : Conn)
        (info : ClientInfo), presenceInvariant st →
      (st.clients.map Prod.fst).Nodup →
      mapGet st.clients ws = some info →
      (∀ cc uu, hasPair info cc uu →
        ∀ p ∈ st.clients, p.1 ≠ ws → ¬ hasPair p.2 cc uu) →
      presenceInvariant
        (handleClose isOpen st ws info.conversationId info.userId).1) ∧
    (∀ (isOpen : Conn → Bool) (st : ServerState),
      (reaperSweep isOpen st).active = st.active) := by
  refine ⟨?_, ?_, fun isOpen st => rfl⟩
  · intro isOpen st ws cid uid now hinv hfresh
    have hnk : ¬ (st.clients.any (fun p => p.1 = ws) = true) := by
      intro hany
      obtain ⟨p, hp, hpk⟩ := List.any_eq_true.mp hany
      exact ((mapGet_eq_none_iff _ _).mp hfresh) p hp (by simpa using hpk)
    have hset : mapSet st.clients ws ⟨cid, uid, now⟩ =
        st.clients ++ [(ws, ⟨cid, uid, now⟩)] := by
      rw [mapSet, if_neg hnk]
    rcases cid with _ | cc
    · have hst : (handleConnect isOpen st ws none uid now).1 =
          ⟨st.clients ++ [(ws, ⟨none, uid, now⟩)], st.active⟩ := by
        calc (handleConnect isOpen st ws none uid now).1
            = ⟨mapSet st.clients ws ⟨none, uid, now⟩, st.active⟩ := rfl
          _ = _ := by rw [hset]
      rw [hst]
      refine presenceInvariant_append_nopair st ws _ hinv ?_
      rintro c u ⟨h1, -, -⟩
      cases h1
    · rcases uid with _ | uu
      · have hst : (handleConnect isOpen st ws (some cc) none now).1 =
            ⟨st.clients ++ [(ws, ⟨some cc, none, now⟩)], st.active⟩ := by
          calc (handleConnect isOpen st ws (some cc) none now).1
              = ⟨mapSet st.clients ws ⟨some cc, none, now⟩, st.active⟩ := rfl
            _ = _ := by rw [hset]
        rw [hst]
        refine presenceInvariant_append_nopair st ws _ hinv ?_
        rintro c u ⟨-, h2, -⟩
        cases h2
      · by_cases hcu : cc ≠ "" ∧ uu ≠ ""
        · have hst : (handleConnect isOpen st ws (some cc) (some uu) now).1 =
              ⟨st.clients ++ [(ws, ⟨some cc, some uu, now⟩)],
                presenceJoin st.active cc uu⟩ := by
            calc (handleConnect isOpen st ws (some cc) (some uu) now).1
                = ⟨mapSet st.clients ws ⟨some cc, some uu, now⟩,
                    if cc ≠ "" ∧ uu ≠ "" then presenceJoin st.active cc uu
                    else st.active⟩ := rfl
              _ = _ := by rw [hset, if_pos hcu]
          rw [hst]
          refine presenceInvariant_append_pair st ws cc uu _ hinv ?_
          intro c u
          constructor
          · rintro ⟨h1, h2, -, -⟩
            exact ⟨(Option.some.inj h1).symm, (Option.some.inj h2).symm⟩
          · rintro ⟨hceq, hueq⟩
            exact ⟨by rw [hceq], by rw [hueq], hceq ▸ hcu.1, hueq ▸ hcu.2⟩
        · have hst : (handleConnect isOpen st ws (some cc) (some uu) now).1 =
              ⟨st.clients ++ [(ws, ⟨some cc, some uu, now⟩)], st.active⟩ := by
            calc (handleConnect isOpen st ws (some cc) (some uu) now).1
                = ⟨mapSet st.clients ws ⟨some cc, some uu, now⟩,
                    if cc ≠ "" ∧ uu ≠ "" then presenceJoin st.active cc uu
                    else st.active⟩ := rfl
              _ = _ := by rw [hset, if_neg hcu]
          rw [hst]
          refine presenceInvariant_append_nopair st ws _ hinv ?_
          rintro c u ⟨h1, h2, h3, h4⟩
          exact hcu ⟨(Option.some.inj h1) ▸ h3, (Option.some.inj h2) ▸ h4⟩
  · intro isOpen st ws info hinv hnd hreg huniq
    rcases hcv : info.conversationId with _ | cc
    · have hst : (handleClose isOpen st ws none info.userId).1 =
          ⟨mapDelete st.clients ws, st.active⟩ := rfl
      rw [hst]
      refine presenceInvariant_delete_nopair st ws info hinv hnd hreg ?_
      rintro c u ⟨h1, -, -⟩
      rw [hcv] at h1
      cases h1
    · rcases hui : info.userId with _ | uu
      · have hst : (handleClose isOpen st ws (some cc) none).1 =
            ⟨mapDelete st.clients ws, st.active⟩ := rfl
        rw [hst]
        refine presenceInvariant_delete_nopair st ws info hinv hnd hreg ?_
        rintro c u ⟨-, h2, -⟩
        rw [hui] at h2
        cases h2
      · by_cases hcu : cc ≠ "" ∧ uu ≠ ""
        · have hst : (handleClose isOpen st ws (some cc) (some uu)).1 =
              ⟨mapDelete st.clients ws, presenceLeave st.active cc uu⟩ := by
            calc (handleClose isOpen st ws (some cc) (some uu)).1
                = ⟨mapDelete st.clients ws,
                    if cc ≠ "" ∧ uu ≠ "" then presenceLeave st.active cc uu
                    else st.active⟩ := rfl
              _ = _ := by rw [if_pos hcu]
          rw [hst]
          exact presenceInvariant_delete_pair st ws info cc uu hinv hnd hreg
            hcv hui (huniq cc uu ⟨hcv, hui, hcu.1, hcu.2⟩)
        · have hst : (handleClose isOpen st ws (some cc) (some uu)).1 =
              ⟨mapDelete st.clients ws, st.active⟩ := by
            calc (handleClose isOpen st ws (some cc) (some uu)).1
                = ⟨mapDelete st.clients ws,
                    if cc ≠ "" ∧ uu ≠ "" then presenceLeave st.active cc uu
                    else st.active⟩ := rfl
              _ = _ := by rw [if_neg hcu]
          rw [hst]
          refine presenceInvariant_delete_nopair st ws info hinv hnd hreg ?_
          rintro c u ⟨h1, h2, h3, h4⟩
          rw [hcv] at h1
          rw [hui] at h2
          exact hcu ⟨(Option.some.inj h1) ▸ h3, (Option.some.inj h2) ▸ h4⟩

/-- Counterexample to C4 as stated: a single connection joins conversation
"c1" as user "u1" and then its channel dies without a close signal.  After
the reaper sweep the registry entry is gone, but "u1" is still recorded in
the presence set of "c1", so the invariant fails after a reaper sweep. -/
theorem C4_presence_invariant_counterexample :
    presenceInvariant
      (handleConnect (fun _ => false) ⟨[], []⟩ 0 (some "c1") (some "u1")
        0).1 ∧
    ¬ presenceInvariant
      (reaperSweep (fun _ => false)
        (handleConnect (fun _ => false) ⟨[], []⟩ 0 (some "c1") (some "u1")
          0).1) := by
  have hst : (handleConnect (fun _ => false) ⟨[], []⟩ 0 (some "c1")
      (some "u1") 0).1 =
      ⟨[(0, ⟨some "c1", some "u1", 0⟩)], [("c1", ["u1"])]⟩ := by decide
  have hswept : reaperSweep (fun _ => false)
      (handleConnect (fun _ => false) ⟨[], []⟩ 0 (some "c1") (some "u1")
        0).1 = ⟨[], [("c1", ["u1"])]⟩ := by decide
  constructor
  · rw [hst]
    constructor
    · intro c u
      show userInSet [("c1", ["u1"])] c u ↔
        ∃ p ∈ [((0 : Conn), (⟨some "c1", some "u1", 0⟩ : ClientInfo))],
          hasPair p.2 c u
      constructor
      · rintro ⟨us, hmem, hu⟩
        simp only [List.mem_singleton] at hmem
        obtain ⟨hc, hus⟩ := Prod.mk.inj hmem
        rw [hus] at hu
        have hu' : u = "u1" := List.mem_singleton.mp hu
        refine ⟨(0, ⟨some "c1", some "u1", 0⟩), by simp, ?_, ?_, ?_, ?_⟩
        · rw [hc]
        · rw [hu']
        · rw [hc]; decide
        · rw [hu']; decide
      · rintro ⟨p, hp, hpair⟩
        simp only [List.mem_singleton] at hp
        rw [hp] at hpair
        obtain ⟨h1, h2, -, -⟩ := hpair
        have hc : c = "c1" := (Option.some.inj h1).symm
        have hu : u = "u1" := (Option.some.inj h2).symm
        subst hc
        subst hu
        exact ⟨["u1"], by simp, by simp⟩
    · intro cu hcu
      simp only [List.mem_singleton] at hcu
      rw [hcu]
      simp
  · rw [hswept]
    rintro ⟨h1, -⟩
    obtain ⟨p, hp, -⟩ :=
      (h1 "c1" "u1").mp ⟨["u1"], by simp, by simp⟩
    cases hp

/-- Witness for C4's amended theorem: connecting u1 to c1 on the empty state
preserves the invariant. -/
theorem C4_presence_invariant_amended_witness :
    presenceInvariant ⟨[], []⟩ ∧
    mapGet ([] : Registry) 0 = none ∧
    presenceInvariant
      (handleConnect (fun _ => true) ⟨[], []⟩ 0 (some "c1") (some "u1")
        5).1 := by
  have hempty : presenceInvariant ⟨[], []⟩ := by
    constructor
    · intro c u
      constructor
      · rintro ⟨us, hmem, -⟩
        cases hmem
      · rintro ⟨p, hp, -⟩
        cases hp
    · intro cu hcu
      cases hcu
  exact ⟨hempty, rfl,
    C4_presence_invariant_amended.1 (fun _ => true) ⟨[], []⟩ 0 (some "c1")
      (some "u1") 5 hempty rfl⟩
